import Mathlib

/-!
Shallow embedding of the Wii U SDL backend pieces under verification:
the physical-keyboard event buffer (SDL_wiiukeyboard.c), the UCS-2 to
UTF-8 text conversion, the software-keyboard locale/region negotiation
(SDL_wiiu_swkbd), the texture-update copy paths (SDL_rtexture_wiiu.c),
and the present sequence (SDL_rpresent_wiiu.c).
-/

/-- A key event delivered by the nsyskbd driver (fields used by the code). -/
structure KBDKeyEvent where
  hidCode : Nat
  isPressedDown : Bool
  asUTF16Character : Nat
deriving DecidableEq

/-- `#define EVENT_BUFFER_SIZE 10` -/
def EVENT_BUFFER_SIZE : Nat := 10

/-- `struct WIIUKBD_EventBuffer { KBDKeyEvent events[EVENT_BUFFER_SIZE]; int current; }`.
The C array is modelled as a list of fixed length `EVENT_BUFFER_SIZE`. -/
structure WIIUKBD_EventBuffer where
  events : List KBDKeyEvent
  current : Nat
deriving DecidableEq

/-- The zero-initialised key event (the buffer is `= {0}` initially). -/
def zeroKeyEvent : KBDKeyEvent :=
  { hidCode := 0, isPressedDown := false, asUTF16Character := 0 }

/-- `static struct WIIUKBD_EventBuffer event_buffer = {0};` -/
def initialEventBuffer : WIIUKBD_EventBuffer :=
  { events := List.replicate EVENT_BUFFER_SIZE zeroKeyEvent, current := 0 }

/-- `SDL_WIIUKeyboard_KeyCallback`: under the mutex, append the event when
`current < EVENT_BUFFER_SIZE`, otherwise leave the buffer untouched. -/
def SDL_WIIUKeyboard_KeyCallback (e : KBDKeyEvent) (b : WIIUKBD_EventBuffer) :
    WIIUKBD_EventBuffer :=
  if b.current < EVENT_BUFFER_SIZE then
    { events := b.events.set b.current e, current := b.current + 1 }
  else
    b

/-- The guard in `WIIU_SendKeyEventText`: private symbols used for special keys. -/
def ucs2IsIgnored (symbol : Nat) : Prop :=
  (0xE000 ≤ symbol ∧ symbol ≤ 0xF8FF) ∨ symbol = 0xFFFF

instance (symbol : Nat) : Decidable (ucs2IsIgnored symbol) := by
  unfold ucs2IsIgnored; infer_instance

/-- `WIIU_SendKeyEventText`: converts the UCS-2 code unit of a key event to
UTF-8 and sends it as a text event; returns the bytes passed to
`SDL_SendKeyboardText`, or `none` when the symbol is ignored. -/
def WIIU_SendKeyEventText (e : KBDKeyEvent) : Option (List Nat) :=
  let symbol := e.asUTF16Character
  if ucs2IsIgnored symbol then
    none
  else if symbol < 0x80 then
    some [symbol]
  else if symbol < 0x800 then
    some [0xC0 ||| (symbol >>> 6), 0x80 ||| (symbol &&& 0x3F)]
  else
    some [0xE0 ||| (symbol >>> 12), 0x80 ||| ((symbol >>> 6) &&& 0x3F),
          0x80 ||| (symbol &&& 0x3F)]

/-- A standard UTF-8 decoder for a single complete byte sequence, used to state
the round-trip property.  It accepts exactly the well-formed 1, 2 and 3 byte
sequences (leading byte pattern plus continuation bytes). -/
def utf8DecodeFirst : List Nat → Option Nat
  | [b0] =>
      if b0 < 0x80 then some b0 else none
  | [b0, b1] =>
      if 0xC0 ≤ b0 ∧ b0 < 0xE0 ∧ 0x80 ≤ b1 ∧ b1 < 0xC0 then
        some (((b0 &&& 0x1F) <<< 6) ||| (b1 &&& 0x3F))
      else
        none
  | [b0, b1, b2] =>
      if 0xE0 ≤ b0 ∧ b0 < 0xF0 ∧ 0x80 ≤ b1 ∧ b1 < 0xC0 ∧ 0x80 ≤ b2 ∧ b2 < 0xC0 then
        some (((b0 &&& 0x0F) <<< 12) ||| ((b1 &&& 0x3F) <<< 6) ||| (b2 &&& 0x3F))
      else
        none
  | _ => none

/-- Events sent into the SDL event queue by the keyboard pump. -/
inductive SDLEvent where
  | keyboardKey (pressed : Bool) (scancode : Nat)
  | keyboardText (utf8 : List Nat)
deriving DecidableEq

/-- The software-keyboard state that `WIIU_SWKBD_IsScreenKeyboardShown`
inspects: the `detail::create::created` flag, the window tracked in
`detail::appear::window` (`none` is the null pointer; windows are named by
numbers), and whether `nn::swkbd::GetStateInputForm()` currently returns
`State::Hidden`. -/
structure SwkbdVisibility where
  created : Bool
  appearWindow : Option Nat
  stateHidden : Bool
deriving DecidableEq

/-- `WIIU_SWKBD_IsScreenKeyboardShown(_THIS, window)`: false unless the
keyboard is created, the queried window is the tracked appear window, and the
input form state is not `Hidden`. -/
def WIIU_SWKBD_IsScreenKeyboardShown (v : SwkbdVisibility)
    (window : Option Nat) : Bool :=
  if v.created = false then false
  else if window ≠ v.appearWindow then false
  else if v.stateHidden = false then true
  else false

/-- `SDL_WIIU_PumpKeyboardEvents`: unless
`WIIU_SWKBD_IsScreenKeyboardShown(NULL, NULL)` reports shown (note the null
window argument, compared against the tracked appear window), send one key
event per buffered entry plus the text event of each press; in every case
reset `current` to 0.  Returns the emitted SDL events and the new buffer
state. -/
def SDL_WIIU_PumpKeyboardEvents (v : SwkbdVisibility) (b : WIIUKBD_EventBuffer) :
    List SDLEvent × WIIUKBD_EventBuffer :=
  let emitted :=
    if WIIU_SWKBD_IsScreenKeyboardShown v none = false then
      (b.events.take b.current).flatMap fun e =>
        [SDLEvent.keyboardKey e.isPressedDown e.hidCode] ++
          (if e.isPressedDown then
            match WIIU_SendKeyEventText e with
            | some utf8 => [SDLEvent.keyboardText utf8]
            | none => []
          else [])
    else
      []
  (emitted, { b with current := 0 })

/-- Number of pressed entries among the buffered events (used to state C6's
claim that every press yields a text event). -/
def pressedCount (b : WIIUKBD_EventBuffer) : Nat :=
  ((b.events.take b.current).filter fun e => e.isPressedDown).length

/-- `nn::swkbd::RegionType` (values used by the code). -/
inductive RegionType where
  | Japan | USA | Europe | China | Korea | Taiwan
deriving DecidableEq

/-- `static const std::array usa_countries` in `to_region`. -/
def usa_countries : List String := ["US", "CA", "MX", "BR"]

/-- `static const std::array eur_countries` in `to_region`. -/
def eur_countries : List String := ["DE", "ES", "FR", "GB", "IT", "NL", "PT", "RU"]

/-- `static const std::array eur_languages` in `to_region`. -/
def eur_languages : List String := ["de", "es", "fr", "it", "nl", "pt", "ru"]

/-- `to_region` from SDL_wiiu_swkbd: country decides first, language is the
fallback (the `#if 0` China/Korea/Taiwan branches are compiled out). -/
def to_region (language country : String) : Option RegionType :=
  if country = "JP" then some RegionType.Japan
  else if usa_countries.contains country then some RegionType.USA
  else if eur_countries.contains country then some RegionType.Europe
  else if language = "ja" then some RegionType.Japan
  else if language = "en" then some RegionType.USA
  else if eur_languages.contains language then some RegionType.Europe
  else none

/-- The region-negotiation decision table exactly as the specification words
it (claim C2), to be compared against `to_region`. -/
def to_region_claim (language country : String) : Option RegionType :=
  if country = "JP" then some RegionType.Japan
  else if country = "US" ∨ country = "CA" ∨ country = "MX" ∨ country = "BR" then
    some RegionType.USA
  else if country = "DE" ∨ country = "ES" ∨ country = "FR" ∨ country = "GB" ∨
      country = "IT" ∨ country = "NL" ∨ country = "PT" ∨ country = "RU" then
    some RegionType.Europe
  else if language = "ja" then some RegionType.Japan
  else if language = "en" then some RegionType.USA
  else if language = "de" ∨ language = "es" ∨ language = "fr" ∨ language = "it" ∨
      language = "nl" ∨ language = "pt" ∨ language = "ru" then
    some RegionType.Europe
  else none

/-- Membership in the scanset `[Ca-z]` of the format `"%2[Ca-z]_%2[A-Z]"`. -/
def isLangSetChar (c : Char) : Bool :=
  c = 'C' || ('a' ≤ c && c ≤ 'z')

/-- Membership in the scanset `[A-Z]` of the format `"%2[Ca-z]_%2[A-Z]"`. -/
def isCountrySetChar (c : Char) : Bool :=
  'A' ≤ c && c ≤ 'Z'

/-- `%N[set]` scanning: greedily take up to `n` characters satisfying `p`,
returning the matched characters and the rest of the input. -/
def scanSet (p : Char → Bool) : Nat → List Char → List Char × List Char
  | 0, rest => ([], rest)
  | _ + 1, [] => ([], [])
  | n + 1, c :: rest =>
      if p c then
        let s := scanSet p n rest
        (c :: s.1, s.2)
      else
        ([], c :: rest)

/-- Character-level core of `parse_locale`: the behaviour of
`SDL_sscanf(locale, "%2[Ca-z]_%2[A-Z]", language, country)` together with the
early return on an empty locale.  The language conversion must match at least
one character, then the literal underscore, then the country conversion must
match at least one character; an incomplete match keeps what was already assigned. -/
def parse_locale_chars (l : List Char) : List Char × List Char :=
  match l with
  | [] => ([], [])
  | _ :: _ =>
      let s1 := scanSet isLangSetChar 2 l
      if s1.1 = [] then ([], [])
      else
        match s1.2 with
        | c :: rest2 =>
            if c = '_' then
              let s2 := scanSet isCountrySetChar 2 rest2
              if s2.1 = [] then (s1.1, []) else (s1.1, s2.1)
            else (s1.1, [])
        | [] => (s1.1, [])

/-- `parse_locale` from SDL_wiiu_swkbd: returns the (language, country) pair;
the empty string models the C++ empty/null result. -/
def parse_locale (locale : String) : String × String :=
  ((parse_locale_chars locale.toList).1.asString,
   (parse_locale_chars locale.toList).2.asString)

/-- Lowercase ASCII letter. -/
def lowerAZ (c : Char) : Bool := 'a' ≤ c && c ≤ 'z'

/-- Uppercase ASCII letter. -/
def upperAZ (c : Char) : Bool := 'A' ≤ c && c ≤ 'Z'

/-- `parse_locale` exactly as the specification words it (claim C7): a locale
of the form two-lowercase-letter language, underscore, two-uppercase-letter
country is split into the pair; when only the language part (two lowercase
letters) matches, the country is empty; anything else gives the empty pair. -/
def parse_locale_claim (locale : String) : String × String :=
  match locale.toList with
  | c1 :: c2 :: '_' :: c3 :: c4 :: _ =>
      if lowerAZ c1 && lowerAZ c2 && upperAZ c3 && upperAZ c4 then
        (String.mk [c1, c2], String.mk [c3, c4])
      else if lowerAZ c1 && lowerAZ c2 then
        (String.mk [c1, c2], "")
      else ("", "")
  | c1 :: c2 :: _ =>
      if lowerAZ c1 && lowerAZ c2 then (String.mk [c1, c2], "") else ("", "")
  | _ => ("", "")

/-- Up-to-two uppercase letters at the head of the input (country part of the
amended claim C7). -/
def countryTake2 : List Char → List Char
  | [] => []
  | c :: rest =>
      if upperAZ c then
        match rest with
        | d :: _ => if upperAZ d then [c, d] else [c]
        | [] => [c]
      else []

/-- Character-level core of the amended claim C7. -/
def parse_locale_amended_chars (l : List Char) : List Char × List Char :=
  match l with
  | [] => ([], [])
  | c1 :: rest1 =>
      if isLangSetChar c1 = false then ([], [])
      else
        let s : List Char × List Char :=
          match rest1 with
          | c2 :: rest2 =>
              if isLangSetChar c2 then ([c1, c2], rest2) else ([c1], c2 :: rest2)
          | [] => ([c1], [])
        match s.2 with
        | c :: rest2 =>
            if c = '_' then
              match countryTake2 rest2 with
              | [] => (s.1, [])
              | cs => (s.1, cs)
            else (s.1, [])
        | [] => (s.1, [])

/-- The amended claim C7: the language part is one or two leading characters,
each a lowercase letter or `C` (taken greedily); when an underscore and at
least one uppercase letter follow, the country part is up to two uppercase
letters; otherwise the country is empty; a locale that is empty or does not
start with a language character gives the empty pair. -/
def parse_locale_amended (locale : String) : String × String :=
  ((parse_locale_amended_chars locale.toList).1.asString,
   (parse_locale_amended_chars locale.toList).2.asString)


/-- The fields of a user-supplied `nn::swkbd::CreateArg` that the
initialization logic inspects. -/
structure CreateArgSpec where
  regionType : RegionType
  fsClientProvided : Bool
  workMemoryProvided : Bool
deriving DecidableEq

/-- The mutable keyboard-creation state (`detail::create`): the `created`
flag, the stored region, and whether an internally created FS client /
work memory buffer is currently stored. -/
structure SwkbdCreateState where
  created : Bool
  region : Option RegionType
  fsClient : Bool
  workMemory : Bool
deriving DecidableEq

/-- Environment of one `WIIU_SWKBD_Initialize` call: configuration read by the
call and the success/failure of the three fallible steps (FS client creation,
work-memory allocation, `nn::swkbd::Create`). -/
structure SwkbdEnv where
  enabled : Bool
  customArg : Option CreateArgSpec
  swkbdLocale : String
  systemRegion : RegionType
  fsClientAllocOk : Bool
  workMemoryAllocOk : Bool
  createOk : Bool
deriving DecidableEq

/-- The `arg.regionType` computed by `WIIU_SWKBD_Initialize`: the custom arg's
region when one is set, otherwise `to_region` over the parsed locale with the
console's system region as fallback. -/
def initializeRegion (env : SwkbdEnv) : RegionType :=
  match env.customArg with
  | some a => a.regionType
  | none =>
      let lc := parse_locale env.swkbdLocale
      match to_region lc.1 lc.2 with
      | some r => r
      | none => env.systemRegion

/-- `arg.fsClient != nullptr` as far as the initialization logic is concerned:
a user-supplied `CreateArg` with its own FS client. -/
def argFsClientProvided (env : SwkbdEnv) : Bool :=
  match env.customArg with
  | some a => a.fsClientProvided
  | none => false

/-- `arg.workMemory != nullptr`: a user-supplied `CreateArg` with its own work
memory. -/
def argWorkMemoryProvided (env : SwkbdEnv) : Bool :=
  match env.customArg with
  | some a => a.workMemoryProvided
  | none => false

/-- `WIIU_SWKBD_Initialize`: returns the new creation state together with the
error messages logged.  Mirrors the source's early returns: already created or
disabled returns silently; a failed FS-client creation, work-memory
allocation, or `nn::swkbd::Create` logs one error and returns.  The moves of
the stored FS client / work memory into locals are modelled by clearing the
stored flags at the corresponding program points. -/
def WIIU_SWKBD_Initialize (st : SwkbdCreateState) (env : SwkbdEnv) :
    SwkbdCreateState × List String :=
  if st.created then (st, [])
  else if env.enabled = false then (st, [])
  else
    -- local_fsClient = std::move(detail::create::fsClient)
    let localFs := if argFsClientProvided env then false
      else st.fsClient || env.fsClientAllocOk
    let st1 := { st with fsClient := false }
    if argFsClientProvided env = false ∧ st.fsClient = false ∧
        env.fsClientAllocOk = false then
      (st1, ["Could not create FSClient for nn::swkbd"])
    else
      -- local_workMemory = std::move(detail::create::workMemory)
      let localWM := if argWorkMemoryProvided env then false
        else env.workMemoryAllocOk
      let st2 := { st1 with workMemory := false }
      if argWorkMemoryProvided env = false ∧ env.workMemoryAllocOk = false then
        (st2, ["Could not allocate memory for nn::swkbd"])
      else if env.createOk = false then
        (st2, ["nn::swkbd::Create() failed"])
      else
        ({ created := true, region := some (initializeRegion env),
           fsClient := localFs, workMemory := localWM }, [])

/-- The failure condition of `WIIU_SWKBD_Initialize` on a not-yet-created
state: the call is enabled and the FS-client step, the work-memory step, or
the vendor `Create` call fails. -/
def initializeFails (st : SwkbdCreateState) (env : SwkbdEnv) : Prop :=
  env.enabled = true ∧
    ((argFsClientProvided env = false ∧ st.fsClient = false ∧
        env.fsClientAllocOk = false) ∨
     (argWorkMemoryProvided env = false ∧ env.workMemoryAllocOk = false) ∨
     env.createOk = false)

instance (st : SwkbdCreateState) (env : SwkbdEnv) :
    Decidable (initializeFails st env) := by
  unfold initializeFails; infer_instance

/-- Arguments of one `WIIU_SDL_UpdateTexture` call: the update rectangle's
width and height, the texture's bytes per pixel, the source pitch, the locked
destination pitch, and the two buffer addresses (used only for alignment). -/
structure UpdateTextureArgs where
  rectW : Nat
  rectH : Nat
  BytesPerPixel : Nat
  pitch : Nat
  dstPitch : Nat
  srcAddr : Nat
  dstAddr : Nat
deriving DecidableEq

/-- `DMAECopyMem(dst, src, wordCount, DMAE_SWAP_NONE)`: copies `wordCount`
32-bit words, that is `4 * wordCount` bytes, from source to destination.
Memory is a map from byte offset to byte value. -/
def DMAECopyMem (wordCount : Nat) (src dst : Nat → Nat) : Nat → Nat :=
  fun i => if i < 4 * wordCount then src i else dst i

/-- `OSBlockMove(dst, src, n, flush)`: plain copy of `n` bytes. -/
def OSBlockMove (n : Nat) (src dst : Nat → Nat) : Nat → Nat :=
  fun i => if i < n then src i else dst i

/-- The per-row copy loop of `WIIU_SDL_UpdateTexture`: row `r` copies `len`
bytes from source offset `r * pitch` to destination offset `r * dstPitch`. -/
def copyRows (src : Nat → Nat) (len pitch dstPitch : Nat) :
    Nat → (Nat → Nat) → (Nat → Nat)
  | 0, dst => dst
  | r + 1, dst =>
      let dst1 := copyRows src len pitch dstPitch r dst
      fun i =>
        if r * dstPitch ≤ i ∧ i < r * dstPitch + len then
          src (r * pitch + (i - r * dstPitch))
        else dst1 i

/-- `WIIU_SDL_UpdateTexture` after the texture lock: chooses the single DMA
transfer, the single block move, or the per-row copies, and returns whether
the DMA path was taken together with the resulting destination contents. -/
def WIIU_SDL_UpdateTexture (a : UpdateTextureArgs) (src dst : Nat → Nat) :
    Bool × (Nat → Nat) :=
  let length := a.rectW * a.BytesPerPixel
  let total_size := length * a.rectH
  if length = a.pitch ∧ length = a.dstPitch then
    if total_size > 5120 ∧ a.srcAddr &&& 7 = 0 ∧ a.dstAddr &&& 7 = 0 then
      (true, DMAECopyMem (total_size >>> 2) src dst)
    else
      (false, OSBlockMove total_size src dst)
  else
    (false, copyRows src length a.pitch a.dstPitch a.rectH dst)

/-- `GX2_SURFACE_FORMAT_UNORM_R8_G8_B8_A8` -/
def GX2_SURFACE_FORMAT_UNORM_R8_G8_B8_A8 : Nat := 0x01a

/-- `GX2_SURFACE_FORMAT_SRGB_R8_G8_B8_A8` -/
def GX2_SURFACE_FORMAT_SRGB_R8_G8_B8_A8 : Nat := 0x41a

/-- The observable actions performed by `WIIU_SDL_RenderPresent`, in program
order.  `setContextState true` is `GX2SetContextState(NULL)`;
`setContextState false` restores the SDL context (`data->ctx`).
`setSurfaceFormat f` is the assignment `tdata->cbuf.surface.format = f`. -/
inductive GX2Action where
  | setContextState (toNull : Bool)
  | setSurfaceFormat (format : Nat)
  | initColorBufferRegs
  | setColorBuffer
  | swkbdDraw
  | copyColorBufferToScanBuffer (tv : Bool)
  | swapScanBuffers
  | flush
  | frameDone
  | setTVEnable
  | setDRCEnable
deriving DecidableEq

/-- Inputs of one `WIIU_SDL_RenderPresent` call: whether the software keyboard
is shown on this window, the window's `SDL_WINDOW_WIIU_GAMEPAD_ONLY` and
`SDL_WINDOW_WIIU_TV_ONLY` flags, the colour buffer's surface format on entry,
and the static `tvDrcEnabled` flag on entry. -/
structure PresentInput where
  swkbdShown : Bool
  gamepadOnly : Bool
  tvOnly : Bool
  cbufFormat : Nat
  tvDrcEnabled : Bool
deriving DecidableEq

/-- `WIIU_SDL_RenderPresent`: the sequence of actions performed, and the value
of the static `tvDrcEnabled` flag after the call. -/
def WIIU_SDL_RenderPresent (inp : PresentInput) : List GX2Action × Bool :=
  let drawPart :=
    if inp.swkbdShown then
      GX2Action.setContextState true ::
        (if inp.cbufFormat = GX2_SURFACE_FORMAT_UNORM_R8_G8_B8_A8 then
          [GX2Action.setSurfaceFormat GX2_SURFACE_FORMAT_SRGB_R8_G8_B8_A8,
           GX2Action.initColorBufferRegs, GX2Action.setColorBuffer,
           GX2Action.swkbdDraw,
           GX2Action.setSurfaceFormat inp.cbufFormat,
           GX2Action.initColorBufferRegs, GX2Action.setColorBuffer]
        else [GX2Action.swkbdDraw])
    else []
  let copyPart :=
    (if inp.gamepadOnly = false then
      [GX2Action.copyColorBufferToScanBuffer true] else []) ++
    (if inp.tvOnly = false then
      [GX2Action.copyColorBufferToScanBuffer false] else [])
  let endPart :=
    [GX2Action.swapScanBuffers, GX2Action.flush,
     GX2Action.setContextState false, GX2Action.frameDone] ++
    (if inp.tvDrcEnabled = false then
      [GX2Action.setTVEnable, GX2Action.setDRCEnable] else [])
  (drawPart ++ copyPart ++ endPart,
   if inp.tvDrcEnabled = false then true else inp.tvDrcEnabled)

/-- The colour buffer's surface format after executing a list of actions:
`setSurfaceFormat` overwrites it, every other action leaves it alone. -/
def surfaceFormatAfter (init : Nat) (actions : List GX2Action) : Nat :=
  actions.foldl
    (fun f a =>
      match a with
      | GX2Action.setSurfaceFormat g => g
      | _ => f)
    init

/-- Whether an action writes the colour buffer's surface format field. -/
def isSetSurfaceFormat : GX2Action → Bool
  | GX2Action.setSurfaceFormat _ => true
  | _ => false

/-- A concrete present call: software keyboard shown over an unorm RGBA colour
buffer, both displays in use, first frame. -/
def presentSample : PresentInput :=
  { swkbdShown := true, gamepadOnly := false, tvOnly := false,
    cbufFormat := GX2_SURFACE_FORMAT_UNORM_R8_G8_B8_A8, tvDrcEnabled := false }

/-- A concrete key event (latin letter A, scancode of the A key) used to
witness the claims about key-event text conversion. -/
def sampleKeyEventA : KBDKeyEvent :=
  { hidCode := 4, isPressedDown := true, asUTF16Character := 0x41 }

/-- A concrete key press of a special key whose UCS-2 code unit is in the
private-use range (scancode 82, up arrow). -/
def specialKeyDownEvent : KBDKeyEvent :=
  { hidCode := 82, isPressedDown := true, asUTF16Character := 0xE000 }

/-- A buffer holding exactly the one special key press above. -/
def specialKeyBuffer : WIIUKBD_EventBuffer :=
  { events := specialKeyDownEvent :: List.replicate 9 zeroKeyEvent, current := 1 }

/-- The software keyboard is created and visible on an actual window (window
number 1) — the normal case while a user types on the screen keyboard. -/
def visibleSwkbd : SwkbdVisibility :=
  { created := true, appearWindow := some 1, stateHidden := false }

/-- No software keyboard has been created. -/
def hiddenSwkbd : SwkbdVisibility :=
  { created := false, appearWindow := none, stateHidden := true }

/-- The software keyboard is created and not hidden while the tracked appear
window is null — the only situation in which the pump's
`IsScreenKeyboardShown(NULL, NULL)` gate reports shown. -/
def nullWindowShownSwkbd : SwkbdVisibility :=
  { created := true, appearWindow := none, stateHidden := false }

/-- A fresh keyboard-creation state: nothing created, no region stored. -/
def freshSwkbdState : SwkbdCreateState :=
  { created := false, region := none, fsClient := false, workMemory := false }

/-- A concrete environment in which the vendor `Create` call fails. -/
def sampleFailEnv : SwkbdEnv :=
  { enabled := true, customArg := none, swkbdLocale := "en_US",
    systemRegion := RegionType.Europe, fsClientAllocOk := true,
    workMemoryAllocOk := true, createOk := false }

/-- A concrete environment in which every step succeeds. -/
def sampleGoodEnv : SwkbdEnv :=
  { enabled := true, customArg := none, swkbdLocale := "en_US",
    systemRegion := RegionType.Europe, fsClientAllocOk := true,
    workMemoryAllocOk := true, createOk := true }

/-- A concrete environment whose locale matches neither a known country nor a
known language, forcing the system-region fallback. -/
def sampleFallbackEnv : SwkbdEnv :=
  { enabled := true, customArg := none, swkbdLocale := "xx_XX",
    systemRegion := RegionType.Japan, fsClientAllocOk := true,
    workMemoryAllocOk := true, createOk := true }

/-- Source memory holding the byte 1 everywhere. -/
def byteOneSrc : Nat → Nat := fun _ => 1

/-- Destination memory holding the byte 0 everywhere. -/
def byteZeroDst : Nat → Nat := fun _ => 0

/-- Texture-update arguments of a 1-byte-per-pixel, one-column update of 5121
rows: equal pitches, total size 5121 > 5120, aligned pointers — the DMA path
is taken although the total size is not a multiple of 4. -/
def dmaCounterArgs : UpdateTextureArgs :=
  { rectW := 1, rectH := 5121, BytesPerPixel := 1, pitch := 1, dstPitch := 1,
    srcAddr := 0, dstAddr := 0 }

/-- Texture-update arguments of a 4-byte-per-pixel 32x41 update: the DMA path
is taken and the total size (5248 bytes) is a multiple of 4. -/
def dmaWitnessArgs : UpdateTextureArgs :=
  { rectW := 32, rectH := 41, BytesPerPixel := 4, pitch := 128, dstPitch := 128,
    srcAddr := 0, dstAddr := 0 }

lemma take_set_succ {α : Type} (l : List α) (c : Nat) (e : α) (h : c < l.length) :
    (l.set c e).take (c + 1) = l.take c ++ [e] := by
  induction l generalizing c with
  | nil => simp at h
  | cons x xs ih =>
      cases c with
      | zero => simp
      | succ n =>
          simp only [List.set_cons_succ, List.take_succ_cons, List.cons_append]
          rw [ih n (by simpa using h)]

lemma keyCallback_foldl (es : List KBDKeyEvent) :
    ∀ b : WIIUKBD_EventBuffer, b.events.length = EVENT_BUFFER_SIZE →
      b.current ≤ EVENT_BUFFER_SIZE →
      ((es.foldl (fun acc e => SDL_WIIUKeyboard_KeyCallback e acc) b).events.length
          = EVENT_BUFFER_SIZE) ∧
      ((es.foldl (fun acc e => SDL_WIIUKeyboard_KeyCallback e acc) b).current
          = min (b.current + es.length) EVENT_BUFFER_SIZE) ∧
      ((es.foldl (fun acc e => SDL_WIIUKeyboard_KeyCallback e acc) b).events.take
          (es.foldl (fun acc e => SDL_WIIUKeyboard_KeyCallback e acc) b).current
        = b.events.take b.current ++ es.take (EVENT_BUFFER_SIZE - b.current)) := by
  induction es with
  | nil =>
      intro b h1 h2
      refine ⟨h1, ?_, ?_⟩
      · simpa using Nat.min_eq_left h2
      · simp [Nat.min_eq_left h2]
  | cons e es ih =>
      intro b h1 h2
      simp only [List.foldl_cons]
      by_cases hc : b.current < EVENT_BUFFER_SIZE
      · have step : SDL_WIIUKeyboard_KeyCallback e b =
            ⟨b.events.set b.current e, b.current + 1⟩ := by
          simp [SDL_WIIUKeyboard_KeyCallback, hc]
        rw [step]
        obtain ⟨r1, r2, r3⟩ := ih ⟨b.events.set b.current e, b.current + 1⟩
          (by simpa using h1) (show b.current + 1 ≤ EVENT_BUFFER_SIZE by omega)
        refine ⟨r1, ?_, ?_⟩
        · rw [r2]; simp only [List.length_cons]; omega
        · rw [r3]
          simp only
          rw [take_set_succ _ _ _ (by omega)]
          have hsub : EVENT_BUFFER_SIZE - b.current =
              (EVENT_BUFFER_SIZE - (b.current + 1)) + 1 := by omega
          rw [hsub, List.take_succ_cons, List.append_assoc, List.singleton_append]
      · have step : SDL_WIIUKeyboard_KeyCallback e b = b := by
          simp [SDL_WIIUKeyboard_KeyCallback, hc]
        rw [step]
        obtain ⟨r1, r2, r3⟩ := ih b h1 h2
        have hcur : b.current = EVENT_BUFFER_SIZE := by omega
        refine ⟨r1, ?_, ?_⟩
        · rw [r2]; simp only [List.length_cons]; omega
        · rw [r3, hcur]
          simp

/-- Claim C1, counterexample: eleven key-callback invocations between two pump
calls,atop an empty buffer.  The buffer does not wrap around: the eleventh
(newest) event is absent from the buffer, the first ten are kept, so the
newest event does not replace the oldest one. -/
theorem C1_counterexample :
    ((((List.range 11).map fun n =>
          ({ hidCode := n, isPressedDown := true, asUTF16Character := 0 } :
            KBDKeyEvent)).foldl
        (fun acc e => SDL_WIIUKeyboard_KeyCallback e acc)
        initialEventBuffer).current = 10) ∧
    (({ hidCode := 10, isPressedDown := true, asUTF16Character := 0 } :
        KBDKeyEvent) ∉
      (((List.range 11).map fun n =>
          ({ hidCode := n, isPressedDown := true, asUTF16Character := 0 } :
            KBDKeyEvent)).foldl
        (fun acc e => SDL_WIIUKeyboard_KeyCallback e acc)
        initialEventBuffer).events) ∧
    ((((List.range 11).map fun n =>
          ({ hidCode := n, isPressedDown := true, asUTF16Character := 0 } :
            KBDKeyEvent)).foldl
        (fun acc e => SDL_WIIUKeyboard_KeyCallback e acc)
        initialEventBuffer).events =
      (List.range 10).map fun n =>
        ({ hidCode := n, isPressedDown := true, asUTF16Character := 0 } :
          KBDKeyEvent)) := by
  decide

/-- Claim C1 (amended): for every sequence of key-callback invocations between
two pump calls (so starting from the empty buffer), the 10-entry buffer keeps
the first `min n 10` events in arrival order; when more than 10 events arrive
the excess newest events are dropped and the oldest are kept. -/
theorem C1_buffer_drop_newest (es : List KBDKeyEvent) :
    ((es.foldl (fun acc e => SDL_WIIUKeyboard_KeyCallback e acc)
        initialEventBuffer).current = min es.length EVENT_BUFFER_SIZE) ∧
    ((es.foldl (fun acc e => SDL_WIIUKeyboard_KeyCallback e acc)
          initialEventBuffer).events.take
        (es.foldl (fun acc e => SDL_WIIUKeyboard_KeyCallback e acc)
          initialEventBuffer).current
      = es.take EVENT_BUFFER_SIZE) := by
  obtain ⟨h1, h2, h3⟩ := keyCallback_foldl es initialEventBuffer (by decide) (by decide)
  refine ⟨?_, ?_⟩
  · simpa [initialEventBuffer] using h2
  · simpa [initialEventBuffer] using h3

/-- Claim C9: the key callback never writes outside the 10-entry array.  It
appends only while `current < 10` (then `events` changes at index `current`
and `current` increments), silently drops the event otherwise (buffer
unchanged), so `current ≤ 10` is preserved by every callback, and every pump
call resets `current` to 0. -/
theorem C9_callback_bounds :
    (∀ (e : KBDKeyEvent) (b : WIIUKBD_EventBuffer),
      b.current ≤ EVENT_BUFFER_SIZE →
      (SDL_WIIUKeyboard_KeyCallback e b).current ≤ EVENT_BUFFER_SIZE) ∧
    (∀ (e : KBDKeyEvent) (b : WIIUKBD_EventBuffer),
      ¬ b.current < EVENT_BUFFER_SIZE →
      SDL_WIIUKeyboard_KeyCallback e b = b) ∧
    (∀ (e : KBDKeyEvent) (b : WIIUKBD_EventBuffer),
      b.current < EVENT_BUFFER_SIZE →
      (SDL_WIIUKeyboard_KeyCallback e b).events = b.events.set b.current e ∧
      (SDL_WIIUKeyboard_KeyCallback e b).current = b.current + 1) ∧
    (∀ (v : SwkbdVisibility) (b : WIIUKBD_EventBuffer),
      (SDL_WIIU_PumpKeyboardEvents v b).2.current = 0) := by
  refine ⟨?_, ?_, ?_, ?_⟩
  · intro e b h
    by_cases hc : b.current < EVENT_BUFFER_SIZE <;>
      simp [SDL_WIIUKeyboard_KeyCallback, hc] <;> omega
  · intro e b h
    simp [SDL_WIIUKeyboard_KeyCallback, h]
  · intro e b h
    simp [SDL_WIIUKeyboard_KeyCallback, h]
  · intro v b
    simp [SDL_WIIU_PumpKeyboardEvents]

/-- Witness for C9 at a concrete buffer and event. -/
theorem C9_witness :
    (SDL_WIIUKeyboard_KeyCallback zeroKeyEvent initialEventBuffer).current
        ≤ EVENT_BUFFER_SIZE ∧
    (SDL_WIIU_PumpKeyboardEvents visibleSwkbd initialEventBuffer).2.current = 0 :=
  ⟨C9_callback_bounds.1 zeroKeyEvent initialEventBuffer (by decide),
   C9_callback_bounds.2.2.2 visibleSwkbd initialEventBuffer⟩

lemma and_mask_3F (x : Nat) : x &&& 0x3F = x % 64 := by
  have h := Nat.and_pow_two_sub_one_eq_mod x 6
  norm_num at h
  exact h

lemma and_mask_1F (x : Nat) : x &&& 0x1F = x % 32 := by
  have h := Nat.and_pow_two_sub_one_eq_mod x 5
  norm_num at h
  exact h

lemma and_mask_0F (x : Nat) : x &&& 0x0F = x % 16 := by
  have h := Nat.and_pow_two_sub_one_eq_mod x 4
  norm_num at h
  exact h

lemma or_0x80 (x : Nat) (h : x < 64) : 0x80 ||| x = 128 + x := by
  calc 0x80 ||| x = 2 ^ 7 * 1 ||| x := by norm_num
    _ = 2 ^ 7 * 1 + x := (Nat.mul_add_lt_is_or (by omega) 1).symm
    _ = 128 + x := by norm_num

lemma or_0xC0 (x : Nat) (h : x < 64) : 0xC0 ||| x = 192 + x := by
  calc 0xC0 ||| x = 2 ^ 6 * 3 ||| x := by norm_num
    _ = 2 ^ 6 * 3 + x := (Nat.mul_add_lt_is_or (by omega) 3).symm
    _ = 192 + x := by norm_num

lemma or_0xE0 (x : Nat) (h : x < 16) : 0xE0 ||| x = 224 + x := by
  calc 0xE0 ||| x = 2 ^ 4 * 14 ||| x := by norm_num
    _ = 2 ^ 4 * 14 + x := (Nat.mul_add_lt_is_or (by omega) 14).symm
    _ = 224 + x := by norm_num

lemma or_mul_64 (a b : Nat) (h : b < 64) : a * 64 ||| b = a * 64 + b := by
  calc a * 64 ||| b = 2 ^ 6 * a ||| b := by ring_nf
    _ = 2 ^ 6 * a + b := (Nat.mul_add_lt_is_or (by omega) a).symm
    _ = a * 64 + b := by ring

lemma or_mul_4096 (a b : Nat) (h : b < 4096) : a * 4096 ||| b = a * 4096 + b := by
  calc a * 4096 ||| b = 2 ^ 12 * a ||| b := by ring_nf
    _ = 2 ^ 12 * a + b := (Nat.mul_add_lt_is_or (by omega) a).symm
    _ = a * 4096 + b := by ring

lemma shiftr_6 (s : Nat) : s >>> 6 = s / 64 := by
  rw [Nat.shiftRight_eq_div_pow]

lemma shiftr_12 (s : Nat) : s >>> 12 = s / 4096 := by
  rw [Nat.shiftRight_eq_div_pow]

lemma utf8_roundtrip_two (s : Nat) (h1 : 0x80 ≤ s) (h2 : s < 0x800) :
    utf8DecodeFirst [0xC0 ||| (s >>> 6), 0x80 ||| (s &&& 0x3F)] = some s := by
  rw [shiftr_6, and_mask_3F, or_0xC0 _ (by omega), or_0x80 _ (by omega)]
  simp only [utf8DecodeFirst]
  rw [if_pos ⟨by omega, by omega, by omega, by omega⟩]
  rw [and_mask_1F, and_mask_3F]
  have e1 : (192 + s / 64) % 32 = s / 64 := by omega
  have e2 : (128 + s % 64) % 64 = s % 64 := by omega
  rw [e1, e2, Nat.shiftLeft_eq]
  norm_num
  rw [or_mul_64 _ _ (by omega)]
  omega

lemma utf8_roundtrip_three (s : Nat) (h1 : 0x800 ≤ s) (h2 : s < 0x10000) :
    utf8DecodeFirst [0xE0 ||| (s >>> 12), 0x80 ||| ((s >>> 6) &&& 0x3F),
      0x80 ||| (s &&& 0x3F)] = some s := by
  rw [shiftr_12, shiftr_6, and_mask_3F, and_mask_3F, or_0xE0 _ (by omega),
    or_0x80 _ (by omega), or_0x80 _ (by omega)]
  simp only [utf8DecodeFirst]
  rw [if_pos ⟨by omega, by omega, by omega, by omega, by omega, by omega⟩]
  rw [and_mask_0F, and_mask_3F, and_mask_3F]
  have e1 : (224 + s / 4096) % 16 = s / 4096 := by omega
  have e2 : (128 + s / 64 % 64) % 64 = s / 64 % 64 := by omega
  have e3 : (128 + s % 64) % 64 = s % 64 := by omega
  rw [e1, e2, e3, Nat.shiftLeft_eq, Nat.shiftLeft_eq]
  norm_num
  rw [or_mul_4096 _ _ (by omega)]
  have e5 : s / 4096 * 4096 + s / 64 % 64 * 64 =
      (s / 4096 * 64 + s / 64 % 64) * 64 := by ring
  rw [e5, or_mul_64 _ _ (by omega)]
  have h64 : s / 64 / 64 = s / 4096 := by
    rw [Nat.div_div_eq_div_mul]
  have hdm2 := Nat.div_add_mod (s / 64) 64
  omega

/-- Claim C3: a key press whose UCS-2 code unit is in the private-use range
0xE000–0xF8FF, or equals 0xFFFF, produces no text event; any other code unit
is sent as its UTF-8 encoding (one byte below 0x80, two below 0x800, three
otherwise) and decoding the emitted bytes recovers the original code unit. -/
theorem C3_utf8_text_roundtrip (e : KBDKeyEvent)
    (hs : e.asUTF16Character < 0x10000) :
    (WIIU_SendKeyEventText e = none ↔ ucs2IsIgnored e.asUTF16Character) ∧
    ∀ bs, WIIU_SendKeyEventText e = some bs →
      bs.length = (if e.asUTF16Character < 0x80 then 1
        else if e.asUTF16Character < 0x800 then 2 else 3) ∧
      utf8DecodeFirst bs = some e.asUTF16Character := by
  by_cases hig : ucs2IsIgnored e.asUTF16Character
  · refine ⟨by simp [WIIU_SendKeyEventText, hig], ?_⟩
    intro bs h
    simp [WIIU_SendKeyEventText, hig] at h
  · have hne : WIIU_SendKeyEventText e ≠ none := by
      simp only [WIIU_SendKeyEventText, hig, if_false]
      split
      · simp
      · split <;> simp
    refine ⟨by simp [hne, hig], ?_⟩
    intro bs h
    by_cases h80 : e.asUTF16Character < 0x80
    · simp [WIIU_SendKeyEventText, hig, h80] at h
      subst h
      simp [utf8DecodeFirst, h80]
    · by_cases h800 : e.asUTF16Character < 0x800
      · simp [WIIU_SendKeyEventText, hig, h80, h800] at h
        subst h
        refine ⟨by simp [h80, h800], ?_⟩
        exact utf8_roundtrip_two _ (by omega) h800
      · simp [WIIU_SendKeyEventText, hig, h80, h800] at h
        subst h
        refine ⟨by simp [h80, h800], ?_⟩
        exact utf8_roundtrip_three _ (by omega) hs

lemma countryTake2_eq (r : List Char) :
    countryTake2 r = (scanSet isCountrySetChar 2 r).1 := by
  have heq : ∀ c, isCountrySetChar c = upperAZ c := fun c => rfl
  rcases r with _ | ⟨c, rest⟩
  · rfl
  · by_cases hc : upperAZ c
    · rcases rest with _ | ⟨d, rest2⟩
      · simp [countryTake2, scanSet, heq, hc]
      · by_cases hd : upperAZ d
        · simp [countryTake2, scanSet, heq, hc, hd]
        · simp [countryTake2, scanSet, heq, hc, hd]
    · simp [countryTake2, scanSet, heq, hc]

lemma parse_tail_eq (lang : List Char) (rest : List Char) :
    (match rest with
     | c :: rest2 =>
         if c = '_' then
           if (scanSet isCountrySetChar 2 rest2).1 = [] then (lang, ([] : List Char))
           else (lang, (scanSet isCountrySetChar 2 rest2).1)
         else (lang, [])
     | [] => (lang, [])) =
    (match rest with
     | c :: rest2 =>
         if c = '_' then
           match countryTake2 rest2 with
           | [] => (lang, [])
           | cs => (lang, cs)
         else (lang, [])
     | [] => (lang, [])) := by
  rcases rest with _ | ⟨c, rest2⟩
  · rfl
  · by_cases hc : c = '_'
    · subst hc
      simp only [if_pos rfl, countryTake2_eq]
      rcases hcs : (scanSet isCountrySetChar 2 rest2).1 with _ | ⟨x, xs⟩ <;> simp
    · simp [hc]

lemma parse_locale_chars_eq_amended (l : List Char) :
    parse_locale_chars l = parse_locale_amended_chars l := by
  rcases l with _ | ⟨c1, rest1⟩
  · rfl
  · by_cases h1 : isLangSetChar c1
    · rcases rest1 with _ | ⟨c2, rest2⟩
      · simp [parse_locale_chars, parse_locale_amended_chars, scanSet, h1]
      · by_cases h2 : isLangSetChar c2
        · have := parse_tail_eq [c1, c2] rest2
          simp only [parse_locale_chars, parse_locale_amended_chars, scanSet, h1,
            h2, if_true, if_false, Bool.not_eq_true] at this ⊢
          simpa using this
        · have := parse_tail_eq [c1] (c2 :: rest2)
          simp only [parse_locale_chars, parse_locale_amended_chars, scanSet, h1,
            h2, if_true, if_false, Bool.not_eq_true] at this ⊢
          simpa using this
    · simp [parse_locale_chars, parse_locale_amended_chars, scanSet, h1]

/-- Claim C7, counterexample: the sscanf format is `"%2[Ca-z]_%2[A-Z]"`, whose
language scanset also accepts the single character `C`; on the locale `"C_FR"`
the code returns `("C", "FR")` while the claim (language part must be two
lowercase letters) predicts the empty pair. -/
theorem C7_counterexample :
    parse_locale "C_FR" = ("C", "FR") ∧
    parse_locale_claim "C_FR" = ("", "") ∧
    parse_locale "C_FR" ≠ parse_locale_claim "C_FR" := by
  refine ⟨by decide, by decide, by decide⟩

/-- Claim C7 (amended): `parse_locale` splits a locale whose start is one or
two characters from the set lowercase-or-`C` (the language), optionally
followed by an underscore and one or two uppercase letters (the country),
into (language, country); when only the language part matches it returns
(language, empty); for an empty locale or one whose first character is not in
the language set it returns the empty pair. -/
theorem C7_parse_locale_behaviour (locale : String) :
    parse_locale locale = parse_locale_amended locale := by
  unfold parse_locale parse_locale_amended
  rw [parse_locale_chars_eq_amended]

/-- Witness for C3 at the concrete key event `sampleKeyEventA`. -/
theorem C3_witness :
    (WIIU_SendKeyEventText sampleKeyEventA = none ↔
      ucs2IsIgnored sampleKeyEventA.asUTF16Character) ∧
    ∀ bs, WIIU_SendKeyEventText sampleKeyEventA = some bs →
      bs.length = (if sampleKeyEventA.asUTF16Character < 0x80 then 1
        else if sampleKeyEventA.asUTF16Character < 0x800 then 2 else 3) ∧
      utf8DecodeFirst bs = some sampleKeyEventA.asUTF16Character :=
  C3_utf8_text_roundtrip sampleKeyEventA (by decide)

lemma sendKeyEventText_none_iff (e : KBDKeyEvent) :
    WIIU_SendKeyEventText e = none ↔ ucs2IsIgnored e.asUTF16Character := by
  by_cases hig : ucs2IsIgnored e.asUTF16Character
  · simp [WIIU_SendKeyEventText, hig]
  · simp only [WIIU_SendKeyEventText, hig, if_false, iff_false]
    intro h
    by_cases h80 : e.asUTF16Character < 0x80
    · simp [hig, h80] at h
    · by_cases h800 : e.asUTF16Character < 0x800
      · simp [hig, h80, h800] at h
      · simp [hig, h80, h800] at h

lemma pump_entry_eq (e : KBDKeyEvent) :
    ([SDLEvent.keyboardKey e.isPressedDown e.hidCode] ++
      (if e.isPressedDown then
        (match WIIU_SendKeyEventText e with
         | some utf8 => [SDLEvent.keyboardText utf8]
         | none => [])
      else [])) =
    SDLEvent.keyboardKey e.isPressedDown e.hidCode ::
      (if e.isPressedDown = true ∧ ¬ ucs2IsIgnored e.asUTF16Character then
        [SDLEvent.keyboardText ((WIIU_SendKeyEventText e).getD [])]
      else []) := by
  rw [List.singleton_append]
  by_cases hp : e.isPressedDown
  · by_cases hig : ucs2IsIgnored e.asUTF16Character
    · have hnone : WIIU_SendKeyEventText e = none :=
        (sendKeyEventText_none_iff e).mpr hig
      simp [hp, hig, hnone]
    · obtain ⟨bs, hbs⟩ : ∃ bs, WIIU_SendKeyEventText e = some bs := by
        cases h : WIIU_SendKeyEventText e
        · exact absurd ((sendKeyEventText_none_iff e).mp h) hig
        · exact ⟨_, rfl⟩
      simp [hp, hig, hbs]
  · simp [hp]

/-- Claim C6, counterexample: the pump's gate is
`WIIU_SWKBD_IsScreenKeyboardShown(NULL, NULL)`, which compares the null
window argument against the tracked appear window.  With the keyboard
created and visible on an actual window (it is shown on window 1), the gate
reports not-shown, so the pump delivers the buffered events — they are not
discarded while the keyboard is visible.  Moreover the delivered press of a
special key (private-use code unit 0xE000) yields no text event, so the
count is not one per entry plus one per press. -/
theorem C6_counterexample :
    WIIU_SWKBD_IsScreenKeyboardShown visibleSwkbd (some 1) = true ∧
    (SDL_WIIU_PumpKeyboardEvents visibleSwkbd specialKeyBuffer).1 =
      [SDLEvent.keyboardKey true 82] ∧
    (SDL_WIIU_PumpKeyboardEvents visibleSwkbd specialKeyBuffer).1 ≠ [] ∧
    pressedCount specialKeyBuffer = 1 ∧
    (SDL_WIIU_PumpKeyboardEvents visibleSwkbd specialKeyBuffer).1.length ≠
      specialKeyBuffer.current + pressedCount specialKeyBuffer := by
  refine ⟨by decide, by decide, by decide, by decide, by decide⟩

/-- Claim C6 (amended): the pump suppresses delivery exactly when
`WIIU_SWKBD_IsScreenKeyboardShown(NULL, NULL)` reports shown, which — since
the null window is compared against the tracked appear window — happens only
when the keyboard is created, not hidden, and tracked on a null window; in
particular events are delivered, not discarded, while the keyboard is
visible on an actual window.  When delivery happens it is one key event per
buffered entry plus a text event for each press whose code unit is not
ignored (not private-use, not 0xFFFF).  Every call resets the buffer count
to zero, so an immediately following pump delivers nothing. -/
theorem C6_pump_delivery (v : SwkbdVisibility) (b : WIIUKBD_EventBuffer) :
    (WIIU_SWKBD_IsScreenKeyboardShown v none = true ↔
      v.created = true ∧ v.appearWindow = none ∧ v.stateHidden = false) ∧
    (WIIU_SWKBD_IsScreenKeyboardShown v none = true →
      (SDL_WIIU_PumpKeyboardEvents v b).1 = []) ∧
    (WIIU_SWKBD_IsScreenKeyboardShown v none = false →
      (SDL_WIIU_PumpKeyboardEvents v b).1 =
        (b.events.take b.current).flatMap fun e =>
          SDLEvent.keyboardKey e.isPressedDown e.hidCode ::
            (if e.isPressedDown = true ∧ ¬ ucs2IsIgnored e.asUTF16Character then
              [SDLEvent.keyboardText ((WIIU_SendKeyEventText e).getD [])]
            else [])) ∧
    ((SDL_WIIU_PumpKeyboardEvents v b).2 = { b with current := 0 }) ∧
    (∀ v2 : SwkbdVisibility,
      (SDL_WIIU_PumpKeyboardEvents v2
        (SDL_WIIU_PumpKeyboardEvents v b).2).1 = []) := by
  refine ⟨?_, ?_, ?_, ?_, ?_⟩
  · obtain ⟨c, w, s⟩ := v
    cases c <;> cases s <;> rcases w with _ | w <;>
      simp [WIIU_SWKBD_IsScreenKeyboardShown]
  · intro h
    simp [SDL_WIIU_PumpKeyboardEvents, h]
  · intro h
    simp only [SDL_WIIU_PumpKeyboardEvents, h, if_pos]
    generalize b.events.take b.current = es
    induction es with
    | nil => rfl
    | cons e es ih =>
        simp only [List.flatMap_cons, ih]
        rw [pump_entry_eq]
  · simp [SDL_WIIU_PumpKeyboardEvents]
  · intro v2
    by_cases hg : WIIU_SWKBD_IsScreenKeyboardShown v2 none = false <;>
      simp [SDL_WIIU_PumpKeyboardEvents, hg]

/-- Witness for C6: suppression in the one gate-shown situation (null tracked
window), and delivery of the amended event sequence for the concrete
one-press buffer when no keyboard exists. -/
theorem C6_witness :
    (SDL_WIIU_PumpKeyboardEvents nullWindowShownSwkbd initialEventBuffer).1
        = [] ∧
    (SDL_WIIU_PumpKeyboardEvents hiddenSwkbd specialKeyBuffer).1 =
      (specialKeyBuffer.events.take specialKeyBuffer.current).flatMap fun e =>
        SDLEvent.keyboardKey e.isPressedDown e.hidCode ::
          (if e.isPressedDown = true ∧ ¬ ucs2IsIgnored e.asUTF16Character then
            [SDLEvent.keyboardText ((WIIU_SendKeyEventText e).getD [])]
          else []) :=
  ⟨(C6_pump_delivery nullWindowShownSwkbd initialEventBuffer).2.1 (by decide),
   (C6_pump_delivery hiddenSwkbd specialKeyBuffer).2.2.1 (by decide)⟩

lemma initialize_good_env (st : SwkbdCreateState) (env : SwkbdEnv)
    (he : env.enabled = true) (hf : env.fsClientAllocOk = true)
    (hw : env.workMemoryAllocOk = true) (hc : env.createOk = true) :
    (WIIU_SWKBD_Initialize st env).1.created = true := by
  by_cases hcreated : st.created = true
  · simp [WIIU_SWKBD_Initialize, hcreated]
  · have h1 : st.created = false := by revert hcreated; cases st.created <;> simp
    simp [WIIU_SWKBD_Initialize, h1, he, hf, hw, hc]

/-- Claim C2: `to_region` decides by country first (JP gives Japan; US, CA,
MX, BR give USA; DE, ES, FR, GB, IT, NL, PT, RU give Europe, irrespective of
the language); only otherwise does the language decide (ja Japan, en USA, and
de, es, fr, it, nl, pt, ru Europe); otherwise no region results, and
`WIIU_SWKBD_Initialize` then falls back to the console's system region (and
on success stores the negotiated region). -/
theorem C2_region_negotiation :
    (∀ language country : String,
      to_region language country = to_region_claim language country) ∧
    (∀ env : SwkbdEnv, env.customArg = none →
      to_region (parse_locale env.swkbdLocale).1 (parse_locale env.swkbdLocale).2
        = none →
      initializeRegion env = env.systemRegion) ∧
    (∀ (st : SwkbdCreateState) (env : SwkbdEnv),
      st.created = false → env.enabled = true → ¬ initializeFails st env →
      (WIIU_SWKBD_Initialize st env).1.region = some (initializeRegion env)) := by
  refine ⟨?_, ?_, ?_⟩
  · intro language country
    simp only [to_region, to_region_claim, usa_countries, eur_countries,
      eur_languages, List.contains_cons, List.contains_nil, Bool.or_eq_true,
      beq_iff_eq, Bool.false_eq_true, or_false]
  · intro env hca hto
    simp [initializeRegion, hca, hto]
  · intro st env h1 he hnf
    have h3 : ¬((argFsClientProvided env = false ∧ st.fsClient = false ∧
          env.fsClientAllocOk = false) ∨
        (argWorkMemoryProvided env = false ∧ env.workMemoryAllocOk = false) ∨
        env.createOk = false) := fun hx => hnf ⟨he, hx⟩
    have hA : ¬(argFsClientProvided env = false ∧ st.fsClient = false ∧
        env.fsClientAllocOk = false) := fun h => h3 (Or.inl h)
    have hB : ¬(argWorkMemoryProvided env = false ∧
        env.workMemoryAllocOk = false) := fun h => h3 (Or.inr (Or.inl h))
    have hC : ¬ env.createOk = false := fun h => h3 (Or.inr (Or.inr h))
    have hC2 : env.createOk = true := by revert hC; cases env.createOk <;> simp
    simp [WIIU_SWKBD_Initialize, h1, he, hA, hB, hC2]

/-- Witness for C2: a country that overrides the language, the system-region
fallback for an unknown locale, and the stored region of a successful
initialization. -/
theorem C2_witness :
    to_region "pt" "JP" = to_region_claim "pt" "JP" ∧
    initializeRegion sampleFallbackEnv = sampleFallbackEnv.systemRegion ∧
    (WIIU_SWKBD_Initialize freshSwkbdState sampleGoodEnv).1.region =
      some (initializeRegion sampleGoodEnv) :=
  ⟨C2_region_negotiation.1 "pt" "JP",
   C2_region_negotiation.2.1 sampleFallbackEnv rfl (by decide),
   C2_region_negotiation.2.2 freshSwkbdState sampleGoodEnv rfl rfl (by decide)⟩

/-- Claim C5: whenever `WIIU_SWKBD_Initialize` fails at any step (FS-client
creation, work-memory allocation, or the vendor `Create` call), it logs an
error and returns with the `created` flag still false and the stored region
still unset; a later call with a healthy environment then succeeds in
creating the keyboard from scratch. -/
theorem C5_initialize_fail_atomic (st : SwkbdCreateState) (env : SwkbdEnv)
    (h1 : st.created = false) (h2 : st.region = none) :
    ((WIIU_SWKBD_Initialize st env).2 ≠ [] ↔ initializeFails st env) ∧
    (initializeFails st env →
      (WIIU_SWKBD_Initialize st env).1.created = false ∧
      (WIIU_SWKBD_Initialize st env).1.region = none) ∧
    (∀ env2 : SwkbdEnv, env2.enabled = true → env2.fsClientAllocOk = true →
      env2.workMemoryAllocOk = true → env2.createOk = true →
      (WIIU_SWKBD_Initialize (WIIU_SWKBD_Initialize st env).1 env2).1.created
        = true) := by
  have hsplit :
      ((WIIU_SWKBD_Initialize st env).2 ≠ [] ↔ initializeFails st env) ∧
      (initializeFails st env →
        (WIIU_SWKBD_Initialize st env).1.created = false ∧
        (WIIU_SWKBD_Initialize st env).1.region = none) := by
    by_cases he : env.enabled = true
    · by_cases hA : argFsClientProvided env = false ∧ st.fsClient = false ∧
          env.fsClientAllocOk = false
      · constructor
        · simp [WIIU_SWKBD_Initialize, initializeFails, h1, he, hA]
        · intro hf
          simp [WIIU_SWKBD_Initialize, h1, he, hA, h2]
      · by_cases hB : argWorkMemoryProvided env = false ∧
            env.workMemoryAllocOk = false
        · constructor
          · simp [WIIU_SWKBD_Initialize, initializeFails, h1, he, hA, hB]
          · intro hf
            simp [WIIU_SWKBD_Initialize, h1, he, hA, hB, h2]
        · by_cases hC : env.createOk = false
          · constructor
            · simp [WIIU_SWKBD_Initialize, initializeFails, h1, he, hA, hB, hC]
            · intro hf
              simp [WIIU_SWKBD_Initialize, h1, he, hA, hB, hC, h2]
          · constructor
            · simp [WIIU_SWKBD_Initialize, initializeFails, h1, he, hA, hB, hC]
            · intro hf
              exact absurd hf (by simp [initializeFails, he, hA, hB, hC])
    · have he2 : env.enabled = false := by revert he; cases env.enabled <;> simp
      constructor
      · simp [WIIU_SWKBD_Initialize, initializeFails, h1, he2]
      · intro hf
        simp [WIIU_SWKBD_Initialize, h1, he2, h2]
  refine ⟨hsplit.1, hsplit.2, ?_⟩
  intro env2 he hf hw hc
  exact initialize_good_env _ env2 he hf hw hc

/-- Witness for C5: a concrete failing environment (the vendor `Create` call
fails) starting from the fresh state. -/
theorem C5_witness :
    ((WIIU_SWKBD_Initialize freshSwkbdState sampleFailEnv).2 ≠ [] ↔
      initializeFails freshSwkbdState sampleFailEnv) ∧
    (initializeFails freshSwkbdState sampleFailEnv →
      (WIIU_SWKBD_Initialize freshSwkbdState sampleFailEnv).1.created = false ∧
      (WIIU_SWKBD_Initialize freshSwkbdState sampleFailEnv).1.region = none) ∧
    (∀ env2 : SwkbdEnv, env2.enabled = true → env2.fsClientAllocOk = true →
      env2.workMemoryAllocOk = true → env2.createOk = true →
      (WIIU_SWKBD_Initialize
        (WIIU_SWKBD_Initialize freshSwkbdState sampleFailEnv).1 env2).1.created
          = true) :=
  C5_initialize_fail_atomic freshSwkbdState sampleFailEnv rfl rfl

lemma and7_eq_mod8 (x : Nat) : x &&& 7 = x % 8 := by
  have h := Nat.and_pow_two_sub_one_eq_mod x 3
  norm_num at h
  exact h

lemma updateTexture_fst (a : UpdateTextureArgs) (src dst : Nat → Nat) :
    (WIIU_SDL_UpdateTexture a src dst).1 = true ↔
      ((a.rectW * a.BytesPerPixel = a.pitch ∧
        a.rectW * a.BytesPerPixel = a.dstPitch) ∧
       (a.rectW * a.BytesPerPixel * a.rectH > 5120 ∧
        a.srcAddr &&& 7 = 0 ∧ a.dstAddr &&& 7 = 0)) := by
  simp only [WIIU_SDL_UpdateTexture]
  by_cases h1 : a.rectW * a.BytesPerPixel = a.pitch ∧
      a.rectW * a.BytesPerPixel = a.dstPitch
  · rw [if_pos h1]
    by_cases h2 : a.rectW * a.BytesPerPixel * a.rectH > 5120 ∧
        a.srcAddr &&& 7 = 0 ∧ a.dstAddr &&& 7 = 0
    · rw [if_pos h2]
      exact iff_of_true rfl ⟨h1, h2⟩
    · rw [if_neg h2]
      exact iff_of_false (by simp) fun h => h2 h.2
  · rw [if_neg h1]
    exact iff_of_false (by simp) fun h => h1 h.1

lemma updateTexture_snd_dma (a : UpdateTextureArgs) (src dst : Nat → Nat)
    (h1 : a.rectW * a.BytesPerPixel = a.pitch ∧
      a.rectW * a.BytesPerPixel = a.dstPitch)
    (h2 : a.rectW * a.BytesPerPixel * a.rectH > 5120 ∧
      a.srcAddr &&& 7 = 0 ∧ a.dstAddr &&& 7 = 0) :
    (WIIU_SDL_UpdateTexture a src dst).2 =
      DMAECopyMem ((a.rectW * a.BytesPerPixel * a.rectH) >>> 2) src dst := by
  simp only [WIIU_SDL_UpdateTexture]
  rw [if_pos h1, if_pos h2]

lemma updateTexture_snd_block (a : UpdateTextureArgs) (src dst : Nat → Nat)
    (h1 : a.rectW * a.BytesPerPixel = a.pitch ∧
      a.rectW * a.BytesPerPixel = a.dstPitch)
    (h2 : ¬(a.rectW * a.BytesPerPixel * a.rectH > 5120 ∧
      a.srcAddr &&& 7 = 0 ∧ a.dstAddr &&& 7 = 0)) :
    (WIIU_SDL_UpdateTexture a src dst).2 =
      OSBlockMove (a.rectW * a.BytesPerPixel * a.rectH) src dst := by
  simp only [WIIU_SDL_UpdateTexture]
  rw [if_pos h1, if_neg h2]

lemma updateTexture_snd_rows (a : UpdateTextureArgs) (src dst : Nat → Nat)
    (h1 : ¬(a.rectW * a.BytesPerPixel = a.pitch ∧
      a.rectW * a.BytesPerPixel = a.dstPitch)) :
    (WIIU_SDL_UpdateTexture a src dst).2 =
      copyRows src (a.rectW * a.BytesPerPixel) a.pitch a.dstPitch a.rectH dst := by
  simp only [WIIU_SDL_UpdateTexture]
  rw [if_neg h1]

lemma copyRows_eq_blockMove (src dst : Nat → Nat) (len : Nat) (rows : Nat) :
    copyRows src len len len rows dst = OSBlockMove (len * rows) src dst := by
  induction rows with
  | zero => funext i; simp [copyRows, OSBlockMove]
  | succ r ih =>
      funext i
      have hexp : len * (r + 1) = len * r + len := by ring
      have hcomm : r * len = len * r := Nat.mul_comm r len
      simp only [copyRows, ih, OSBlockMove]
      by_cases hin : r * len ≤ i ∧ i < r * len + len
      · rw [if_pos hin]
        have hi : r * len + (i - r * len) = i := by omega
        rw [hi, if_pos (by omega)]
      · rw [if_neg hin]
        by_cases h2 : i < len * r
        · rw [if_pos h2, if_pos (by omega)]
        · rw [if_neg h2, if_neg (by omega)]

/-- Claim C4, counterexample: with equal pitches 1, a 1x5121 single-byte-pixel
update and aligned pointers the DMA path is taken, but the DMA transfer moves
only `5121 >> 2` words = 5120 bytes: the final byte differs from what the
memory-copy path would write, so the two paths do not write the same bytes. -/
theorem C4_counterexample :
    (WIIU_SDL_UpdateTexture dmaCounterArgs byteOneSrc byteZeroDst).1 = true ∧
    (WIIU_SDL_UpdateTexture dmaCounterArgs byteOneSrc byteZeroDst).2 5120 = 0 ∧
    OSBlockMove (1 * 1 * 5121) byteOneSrc byteZeroDst 5120 = 1 ∧
    (WIIU_SDL_UpdateTexture dmaCounterArgs byteOneSrc byteZeroDst).2 5120 ≠
      OSBlockMove (1 * 1 * 5121) byteOneSrc byteZeroDst 5120 := by
  refine ⟨rfl, rfl, rfl, by decide⟩

/-- Claim C4 (amended): the DMA path is taken exactly when the row byte length
equals both pitches, the total size exceeds 5120 bytes and both pointers are
8-byte aligned; otherwise a single block move runs when the pitches match and
one copy per row otherwise; the per-row copies write the same bytes as the
single block move whenever the pitches match, and the DMA transfer writes the
same bytes as the block move whenever the total size is a multiple of 4 (in
general it copies only the total size rounded down to a whole number of
words). -/
theorem C4_update_texture_paths (a : UpdateTextureArgs) (src dst : Nat → Nat) :
    ((WIIU_SDL_UpdateTexture a src dst).1 = true ↔
      (a.rectW * a.BytesPerPixel = a.pitch ∧
       a.rectW * a.BytesPerPixel = a.dstPitch ∧
       a.rectW * a.BytesPerPixel * a.rectH > 5120 ∧
       a.srcAddr % 8 = 0 ∧ a.dstAddr % 8 = 0)) ∧
    ((WIIU_SDL_UpdateTexture a src dst).1 = true →
      4 ∣ a.rectW * a.BytesPerPixel * a.rectH →
      (WIIU_SDL_UpdateTexture a src dst).2 =
        OSBlockMove (a.rectW * a.BytesPerPixel * a.rectH) src dst) ∧
    ((WIIU_SDL_UpdateTexture a src dst).1 = false →
      a.rectW * a.BytesPerPixel = a.pitch →
      a.rectW * a.BytesPerPixel = a.dstPitch →
      (WIIU_SDL_UpdateTexture a src dst).2 =
        OSBlockMove (a.rectW * a.BytesPerPixel * a.rectH) src dst) ∧
    (¬(a.rectW * a.BytesPerPixel = a.pitch ∧
        a.rectW * a.BytesPerPixel = a.dstPitch) →
      (WIIU_SDL_UpdateTexture a src dst).2 =
        copyRows src (a.rectW * a.BytesPerPixel) a.pitch a.dstPitch a.rectH dst) ∧
    (a.pitch = a.rectW * a.BytesPerPixel → a.dstPitch = a.rectW * a.BytesPerPixel →
      copyRows src (a.rectW * a.BytesPerPixel) a.pitch a.dstPitch a.rectH dst =
        OSBlockMove (a.rectW * a.BytesPerPixel * a.rectH) src dst) := by
  refine ⟨?_, ?_, ?_, ?_, ?_⟩
  · rw [updateTexture_fst]
    constructor
    · rintro ⟨⟨hp, hq⟩, hr, hs, ht⟩
      exact ⟨hp, hq, hr, by rw [← and7_eq_mod8]; exact hs,
        by rw [← and7_eq_mod8]; exact ht⟩
    · rintro ⟨hp, hq, hr, hs, ht⟩
      exact ⟨⟨hp, hq⟩, hr, by rw [and7_eq_mod8]; exact hs,
        by rw [and7_eq_mod8]; exact ht⟩
  · intro hdma hdvd
    obtain ⟨h1, h2⟩ := (updateTexture_fst a src dst).mp hdma
    rw [updateTexture_snd_dma a src dst h1 h2]
    funext i
    have hmul : 4 * ((a.rectW * a.BytesPerPixel * a.rectH) >>> 2) =
        a.rectW * a.BytesPerPixel * a.rectH := by
      rw [Nat.shiftRight_eq_div_pow]
      have h4 : (2 : Nat) ^ 2 = 4 := rfl
      rw [h4]
      exact Nat.mul_div_cancel' hdvd
    simp only [DMAECopyMem, OSBlockMove, hmul]
  · intro hno hp hq
    have hinner : ¬(a.rectW * a.BytesPerPixel * a.rectH > 5120 ∧
        a.srcAddr &&& 7 = 0 ∧ a.dstAddr &&& 7 = 0) := by
      intro hq2
      have htrue := (updateTexture_fst a src dst).mpr ⟨⟨hp, hq⟩, hq2⟩
      rw [htrue] at hno
      exact absurd hno (by simp)
    exact updateTexture_snd_block a src dst ⟨hp, hq⟩ hinner
  · intro h1
    exact updateTexture_snd_rows a src dst h1
  · intro hp hq
    rw [hp, hq]
    exact copyRows_eq_blockMove src dst _ a.rectH

/-- Witness for C4: the DMA condition and the DMA/block-move agreement at the
concrete word-aligned 32x41 RGBA update. -/
theorem C4_witness :
    ((WIIU_SDL_UpdateTexture dmaWitnessArgs byteOneSrc byteZeroDst).1 = true ↔
      (dmaWitnessArgs.rectW * dmaWitnessArgs.BytesPerPixel = dmaWitnessArgs.pitch ∧
       dmaWitnessArgs.rectW * dmaWitnessArgs.BytesPerPixel = dmaWitnessArgs.dstPitch ∧
       dmaWitnessArgs.rectW * dmaWitnessArgs.BytesPerPixel * dmaWitnessArgs.rectH
          > 5120 ∧
       dmaWitnessArgs.srcAddr % 8 = 0 ∧ dmaWitnessArgs.dstAddr % 8 = 0)) ∧
    (WIIU_SDL_UpdateTexture dmaWitnessArgs byteOneSrc byteZeroDst).2 =
      OSBlockMove
        (dmaWitnessArgs.rectW * dmaWitnessArgs.BytesPerPixel * dmaWitnessArgs.rectH)
        byteOneSrc byteZeroDst :=
  ⟨(C4_update_texture_paths dmaWitnessArgs byteOneSrc byteZeroDst).1,
   (C4_update_texture_paths dmaWitnessArgs byteOneSrc byteZeroDst).2.1
     (by decide) (by decide)⟩

lemma present_no_enable (inp : PresentInput) (h : inp.tvDrcEnabled = true) :
    GX2Action.setTVEnable ∉ (WIIU_SDL_RenderPresent inp).1 ∧
    GX2Action.setDRCEnable ∉ (WIIU_SDL_RenderPresent inp).1 := by
  obtain ⟨shown, gp, tv, fmt, en⟩ := inp
  have hen : en = true := h
  subst hen
  by_cases hf : fmt = GX2_SURFACE_FORMAT_UNORM_R8_G8_B8_A8
  · subst hf
    cases shown <;> cases gp <;> cases tv <;> decide
  · cases shown <;> cases gp <;> cases tv <;> simp [WIIU_SDL_RenderPresent, hf]

/-- Claim C8: in every present call the colour buffer is copied to the TV scan
buffer unless the window is gamepad-only and to the gamepad (DRC) scan buffer
unless it is TV-only; both copies precede the scan-buffer swap, the swap
precedes the flush, and the flush precedes the restore of the SDL GPU context
state; TV and DRC output is enabled exactly when the static flag is still
unset — at the end of the very first present — and the flag then stays set,
so no later present enables it again. -/
theorem C8_present_order (inp : PresentInput) :
    (GX2Action.copyColorBufferToScanBuffer true ∈ (WIIU_SDL_RenderPresent inp).1
      ↔ inp.gamepadOnly = false) ∧
    (GX2Action.copyColorBufferToScanBuffer false ∈ (WIIU_SDL_RenderPresent inp).1
      ↔ inp.tvOnly = false) ∧
    GX2Action.swapScanBuffers ∈ (WIIU_SDL_RenderPresent inp).1 ∧
    GX2Action.flush ∈ (WIIU_SDL_RenderPresent inp).1 ∧
    GX2Action.setContextState false ∈ (WIIU_SDL_RenderPresent inp).1 ∧
    (GX2Action.copyColorBufferToScanBuffer true ∈ (WIIU_SDL_RenderPresent inp).1 →
      (WIIU_SDL_RenderPresent inp).1.indexOf
          (GX2Action.copyColorBufferToScanBuffer true) <
        (WIIU_SDL_RenderPresent inp).1.indexOf GX2Action.swapScanBuffers) ∧
    (GX2Action.copyColorBufferToScanBuffer false ∈ (WIIU_SDL_RenderPresent inp).1 →
      (WIIU_SDL_RenderPresent inp).1.indexOf
          (GX2Action.copyColorBufferToScanBuffer false) <
        (WIIU_SDL_RenderPresent inp).1.indexOf GX2Action.swapScanBuffers) ∧
    ((WIIU_SDL_RenderPresent inp).1.indexOf GX2Action.swapScanBuffers <
      (WIIU_SDL_RenderPresent inp).1.indexOf GX2Action.flush) ∧
    ((WIIU_SDL_RenderPresent inp).1.indexOf GX2Action.flush <
      (WIIU_SDL_RenderPresent inp).1.indexOf (GX2Action.setContextState false)) ∧
    (GX2Action.setTVEnable ∈ (WIIU_SDL_RenderPresent inp).1 ↔
      inp.tvDrcEnabled = false) ∧
    (GX2Action.setDRCEnable ∈ (WIIU_SDL_RenderPresent inp).1 ↔
      inp.tvDrcEnabled = false) ∧
    (WIIU_SDL_RenderPresent inp).2 = true ∧
    (inp.tvDrcEnabled = false →
      (WIIU_SDL_RenderPresent inp).1.drop
          ((WIIU_SDL_RenderPresent inp).1.length - 2) =
        [GX2Action.setTVEnable, GX2Action.setDRCEnable]) ∧
    (∀ inp2 : PresentInput, inp2.tvDrcEnabled = (WIIU_SDL_RenderPresent inp).2 →
      GX2Action.setTVEnable ∉ (WIIU_SDL_RenderPresent inp2).1 ∧
      GX2Action.setDRCEnable ∉ (WIIU_SDL_RenderPresent inp2).1) := by
  have hsnd : (WIIU_SDL_RenderPresent inp).2 = true := by
    obtain ⟨shown, gp, tv, fmt, en⟩ := inp
    cases en <;> rfl
  have hlater : ∀ inp2 : PresentInput,
      inp2.tvDrcEnabled = (WIIU_SDL_RenderPresent inp).2 →
      GX2Action.setTVEnable ∉ (WIIU_SDL_RenderPresent inp2).1 ∧
      GX2Action.setDRCEnable ∉ (WIIU_SDL_RenderPresent inp2).1 := by
    intro inp2 h2
    rw [hsnd] at h2
    exact present_no_enable inp2 h2
  refine ⟨?_, ?_, ?_, ?_, ?_, ?_, ?_, ?_, ?_, ?_, ?_, hsnd, ?_, hlater⟩ <;>
    clear hsnd hlater <;>
    obtain ⟨shown, gp, tv, fmt, en⟩ := inp <;>
    by_cases hf : fmt = GX2_SURFACE_FORMAT_UNORM_R8_G8_B8_A8
  all_goals
    first
    | (subst hf
       cases shown <;> cases gp <;> cases tv <;> cases en <;> decide)
    | (cases shown <;> cases gp <;> cases tv <;> cases en <;>
        simp [WIIU_SDL_RenderPresent, hf, List.indexOf] <;> decide)

/-- Witness for C8 at the concrete first-frame present `presentSample`. -/
theorem C8_witness :
    ((WIIU_SDL_RenderPresent presentSample).1.indexOf
        (GX2Action.copyColorBufferToScanBuffer true) <
      (WIIU_SDL_RenderPresent presentSample).1.indexOf
        GX2Action.swapScanBuffers) ∧
    (WIIU_SDL_RenderPresent presentSample).1.drop
        ((WIIU_SDL_RenderPresent presentSample).1.length - 2) =
      [GX2Action.setTVEnable, GX2Action.setDRCEnable] := by
  obtain ⟨h1, h2, h3, h4, h5, h6, h7, h8, h9, h10, h11, h12, h13, h14⟩ :=
    C8_present_order presentSample
  exact ⟨h6 (by decide), h13 rfl⟩

/-- Claim C10: a present call leaves the colour buffer's surface format
unchanged: when the software keyboard is drawn over an unorm RGBA buffer the
format is switched to sRGB before the keyboard draw and restored to its
previous value after it, before the scan-buffer copies; for every other
format, or when the keyboard is not shown, the format field is never
written. -/
theorem C10_format_restored (inp : PresentInput) :
    (surfaceFormatAfter inp.cbufFormat (WIIU_SDL_RenderPresent inp).1 =
      inp.cbufFormat) ∧
    (inp.swkbdShown = true →
      inp.cbufFormat = GX2_SURFACE_FORMAT_UNORM_R8_G8_B8_A8 →
      ((WIIU_SDL_RenderPresent inp).1.indexOf
          (GX2Action.setSurfaceFormat GX2_SURFACE_FORMAT_SRGB_R8_G8_B8_A8) <
        (WIIU_SDL_RenderPresent inp).1.indexOf GX2Action.swkbdDraw ∧
       (WIIU_SDL_RenderPresent inp).1.indexOf GX2Action.swkbdDraw <
        (WIIU_SDL_RenderPresent inp).1.indexOf
          (GX2Action.setSurfaceFormat inp.cbufFormat) ∧
       (GX2Action.copyColorBufferToScanBuffer true ∈
          (WIIU_SDL_RenderPresent inp).1 →
        (WIIU_SDL_RenderPresent inp).1.indexOf
            (GX2Action.setSurfaceFormat inp.cbufFormat) <
          (WIIU_SDL_RenderPresent inp).1.indexOf
            (GX2Action.copyColorBufferToScanBuffer true)) ∧
       (GX2Action.copyColorBufferToScanBuffer false ∈
          (WIIU_SDL_RenderPresent inp).1 →
        (WIIU_SDL_RenderPresent inp).1.indexOf
            (GX2Action.setSurfaceFormat inp.cbufFormat) <
          (WIIU_SDL_RenderPresent inp).1.indexOf
            (GX2Action.copyColorBufferToScanBuffer false)))) ∧
    (¬(inp.swkbdShown = true ∧
        inp.cbufFormat = GX2_SURFACE_FORMAT_UNORM_R8_G8_B8_A8) →
      ((WIIU_SDL_RenderPresent inp).1.filter isSetSurfaceFormat) = []) := by
  obtain ⟨shown, gp, tv, fmt, en⟩ := inp
  by_cases hf : fmt = GX2_SURFACE_FORMAT_UNORM_R8_G8_B8_A8
  · subst hf
    cases shown <;> cases gp <;> cases tv <;> cases en <;> decide
  · cases shown <;> cases gp <;> cases tv <;> cases en <;>
      simp [WIIU_SDL_RenderPresent, surfaceFormatAfter, isSetSurfaceFormat, hf]

/-- Witness for C10 at the concrete first-frame present `presentSample` (the
format-switch ordering) and at a present without the keyboard shown (no
format write at all). -/
theorem C10_witness :
    ((WIIU_SDL_RenderPresent presentSample).1.indexOf
        (GX2Action.setSurfaceFormat GX2_SURFACE_FORMAT_SRGB_R8_G8_B8_A8) <
      (WIIU_SDL_RenderPresent presentSample).1.indexOf GX2Action.swkbdDraw) ∧
    ((WIIU_SDL_RenderPresent
        { presentSample with swkbdShown := false }).1.filter
      isSetSurfaceFormat) = [] := by
  obtain ⟨h1, h2, h3⟩ := C10_format_restored presentSample
  obtain ⟨g1, g2, g3⟩ :=
    C10_format_restored { presentSample with swkbdShown := false }
  exact ⟨(h2 rfl rfl).1, g3 (by decide)⟩

